import Mathlib

/-!
Shallow embedding of the geometric core of the shipping-route map component
(frontend/src/app/components/Map/Map.tsx): antimeridian longitude
normalization, centroid computation, and the multi-copy hazard intersection
scan.  Coordinates are (latitude, longitude) pairs; rational numbers stand in
for the source's floating-point numbers, with exact arithmetic.
-/

namespace ShippingMap

/-- A coordinate as (latitude, longitude) in degrees. -/
abbrev Coordinate := ℚ × ℚ

/-- Embeds handleDateLineCrossing from Map.tsx: given the previous adjusted
point (undefined for the first point) and the current raw point, shift the
current longitude by 360 when the apparent jump exceeds 180 degrees. -/
def handleDateLineCrossing (prev : Option Coordinate) (current : Coordinate) :
    Coordinate :=
  match prev with
  | none => current
  | some p =>
    let prevLon := p.2
    let currLon := current.2
    let lonDifference := |currLon - prevLon|
    if lonDifference > 180 then
      let adjustedLon := if currLon > prevLon then currLon - 360 else currLon + 360
      (current.1, adjustedLon)
    else current

/-- Embeds the route-normalization effect of Map.tsx (the forEach loop that
builds adjustedCoordinates): each point is adjusted against the last element
pushed so far. -/
def adjustRoute (points : List Coordinate) : List Coordinate :=
  points.foldl
    (fun acc p => acc ++ [handleDateLineCrossing acc.getLast? p]) []

/-- Structural recursion form of the normalization loop, threading the
previous adjusted point explicitly; proved equal to adjustRoute below. -/
def adjustFrom (prev : Coordinate) : List Coordinate → List Coordinate
  | [] => []
  | p :: ps =>
    let q := handleDateLineCrossing (some prev) p
    q :: adjustFrom q ps

/-- Embeds calculateMeanLatLon from Map.tsx: sums of latitudes and
longitudes (reduce with initial accumulator 0) divided by the point count. -/
def calculateMeanLatLon (coordinates : List Coordinate) : Coordinate :=
  let totalPoints : ℚ := coordinates.length
  let sumLat := coordinates.foldl (fun s c => s + c.1) 0
  let sumLon := coordinates.foldl (fun s c => s + c.2) 0
  (sumLat / totalPoints, sumLon / totalPoints)

/-- Follows the spec's words for the normalizer step: for a point after the
first, compute the absolute difference between its longitude and the previous
adjusted longitude; if this exceeds 180, shift by 360 (subtract if current is
greater than previous, add otherwise). -/
def specNormalizeStep (prevAdjusted current : Coordinate) : Coordinate :=
  if |current.2 - prevAdjusted.2| > 180 then
    (current.1,
      if current.2 > prevAdjusted.2 then current.2 - 360 else current.2 + 360)
  else current

/-- Follows the spec's words for the normalizer tail: each subsequent point
is stepped against the previous adjusted point. -/
def specNormalizeAux (prev : Coordinate) : List Coordinate → List Coordinate
  | [] => []
  | p :: ps =>
    specNormalizeStep prev p :: specNormalizeAux (specNormalizeStep prev p) ps

/-- Follows the spec's words for the normalizer: the first point is never
adjusted, every later point is stepped against the previous adjusted point. -/
def specNormalize : List Coordinate → List Coordinate
  | [] => []
  | p :: ps => p :: specNormalizeAux p ps

/-- Trace condition for the normalizer: every raw longitude lies within 540
degrees of the previous adjusted longitude along the traversal, so that a
single 360-degree shift can always bring the jump down to at most 180. -/
def withinUnwrapRange (prev : Coordinate) : List Coordinate → Bool
  | [] => true
  | p :: ps =>
    decide (|p.2 - prev.2| ≤ 540) &&
      withinUnwrapRange (handleDateLineCrossing (some prev) p) ps

/-- Trace condition lifted to a whole route (vacuous for the empty route). -/
def traceBounded : List Coordinate → Bool
  | [] => true
  | p :: ps => withinUnwrapRange p ps

/-- A JavaScript number that may be NaN: none models NaN, some q a finite
value (rationals standing in for floats). -/
abbrev JSNum := Option ℚ

/-- A raw route record as consumed by the normalization effect: each field
models a latitude or longitude string by its parse result (none when the
string is not numeric, so that parseFloat yields NaN on it). -/
structure RawRoutePoint where
  latitude : Option ℚ
  longitude : Option ℚ

/-- Models JavaScript parseFloat on a string: the numeric value when the
string parses, NaN (none) otherwise. -/
def parseFloat (s : Option ℚ) : JSNum := s

/-- NaN-propagating subtraction. -/
def nanSub (a b : JSNum) : JSNum :=
  match a, b with
  | some x, some y => some (x - y)
  | _, _ => none

/-- NaN-propagating absolute value. -/
def nanAbs (a : JSNum) : JSNum := a.map abs

/-- NaN-propagating addition. -/
def nanAdd (a b : JSNum) : JSNum :=
  match a, b with
  | some x, some y => some (x + y)
  | _, _ => none

/-- Comparison with JavaScript NaN semantics: any comparison involving NaN
is false. -/
def jsGt (a b : JSNum) : Bool :=
  match a, b with
  | some x, some y => decide (x > y)
  | _, _ => false

/-- Embeds handleDateLineCrossing evaluated on JavaScript numbers that may
be NaN, as the source runs it on unvalidated parseFloat output. -/
def handleDateLineCrossingJS (prev : Option (JSNum × JSNum))
    (current : JSNum × JSNum) : JSNum × JSNum :=
  match prev with
  | none => current
  | some p =>
    let prevLon := p.2
    let currLon := current.2
    let lonDifference := nanAbs (nanSub currLon prevLon)
    if jsGt lonDifference (some 180) then
      let adjustedLon :=
        if jsGt currLon prevLon then nanSub currLon (some 360)
        else nanAdd currLon (some 360)
      (current.1, adjustedLon)
    else current

/-- Embeds the route-normalization effect of Map.tsx on raw route records:
parseFloat both fields, then push the dateline-adjusted pair.  The output
type has no error channel: whatever parseFloat yields, including NaN, is
pushed into the adjusted coordinate list. -/
def routeNormalizationEffect (route : List RawRoutePoint) :
    List (JSNum × JSNum) :=
  route.foldl
    (fun acc pt =>
      let lat := parseFloat pt.latitude
      let lon := parseFloat pt.longitude
      acc ++ [handleDateLineCrossingJS acc.getLast? (lat, lon)]) []

/-- Swaps a (longitude, latitude) pair into (latitude, longitude) order. -/
def swapLonLat (c : ℚ × ℚ) : ℚ × ℚ := (c.2, c.1)

/-- Modelled from the spec: the segment intersection primitive (the utility
module CheckIntersectionBetweenLineAndPolygon / CheckInterSectionBetweenLines
under the repository's utils directory is not among the provided sources).
Parametric cross-product method: with direction vectors of both segments,
a zero determinant (parallel or collinear) reports no intersection, and an
intersection is reported exactly when both parametric scalars lie in the
closed range from 0 to 1. -/
def segmentsIntersect (a1 a2 b1 b2 : Coordinate) : Option Coordinate :=
  let d1 := (a2.1 - a1.1, a2.2 - a1.2)
  let d2 := (b2.1 - b1.1, b2.2 - b1.2)
  let denom := d1.1 * d2.2 - d1.2 * d2.1
  if denom = 0 then none
  else
    let diff := (b1.1 - a1.1, b1.2 - a1.2)
    let t := (diff.1 * d2.2 - diff.2 * d2.1) / denom
    let u := (diff.1 * d1.2 - diff.2 * d1.1) / denom
    if 0 ≤ t ∧ t ≤ 1 ∧ 0 ≤ u ∧ u ≤ 1 then
      some (a1.1 + t * d1.1, a1.2 + t * d1.2)
    else none

/-- Edges of a polygon ring, implicitly closed: each vertex is paired with
its successor and the final vertex connects back to the first. -/
def ringEdges (ring : List Coordinate) : List (Coordinate × Coordinate) :=
  match ring with
  | [] => []
  | r0 :: _ => ring.zip (ring.tail ++ [r0])

/-- Probes every route segment against every edge of every ring, with no
axis reordering: outer loop over route segments, then rings in listed order,
then ring edges in ring order, returning the first hit. -/
def lineProbePolygonRaw (route : List Coordinate)
    (rings : List (List Coordinate)) : Option Coordinate :=
  (route.zip route.tail).findSome? fun rs =>
    rings.findSome? fun ring =>
      (ringEdges ring).findSome? fun e => segmentsIntersect rs.1 rs.2 e.1 e.2

/-- Modelled from the spec: line-vs-polygon intersection on feature
coordinates given in (longitude, latitude) order; the core reorders each
ring vertex to (latitude, longitude) before probing. -/
def checkIntersectionBetweenLineAndPolygon (route : List Coordinate)
    (polygon : List (List Coordinate)) : Option Coordinate :=
  lineProbePolygonRaw route (polygon.map (List.map swapLonLat))

/-- Modelled from the spec: line-vs-line intersection between two open
polylines already in (latitude, longitude) order, probing every pair of
segments and returning the first hit. -/
def checkIntersectionBetweenLines (route other : List Coordinate) :
    Option Coordinate :=
  (route.zip route.tail).findSome? fun rs =>
    (other.zip other.tail).findSome? fun os =>
      segmentsIntersect rs.1 rs.2 os.1 os.2

/-- A hazard feature carrying geometry.coordinates: a list of rings, each a
list of (longitude, latitude) vertices. -/
structure Feature where
  coordinates : List (List (ℚ × ℚ))

/-- A feature collection as delivered by a cyclone layer. -/
structure FeatureCollection where
  features : List Feature

/-- The three longitude-shifted copies of the forecast-cone collection. -/
structure ConeData where
  original : FeatureCollection
  minus360 : FeatureCollection
  plus360 : FeatureCollection

/-- A track feature carrying geometry.coordinates: a single polyline of
(longitude, latitude) vertices. -/
structure TrackFeature where
  coordinates : List (ℚ × ℚ)

/-- A track feature collection. -/
structure TrackCollection where
  features : List TrackFeature

/-- The three longitude-shifted copies of the observed-track collection. -/
structure TrackData where
  original : TrackCollection
  minus360 : TrackCollection
  plus360 : TrackCollection

/-- Embeds checkIntersectionsWithFeatures from Map.tsx: loop over the
features, apply the check function to each feature's coordinates, and return
on the first non-null intersection. -/
def checkIntersectionsWithFeatures (features : List Feature)
    (adjustedCoordinates : List Coordinate)
    (checkFunction :
      List Coordinate → List (List Coordinate) → Option Coordinate) :
    Option Coordinate :=
  match features with
  | [] => none
  | feature :: rest =>
    match checkFunction adjustedCoordinates feature.coordinates with
    | some intersection => some intersection
    | none => checkIntersectionsWithFeatures rest adjustedCoordinates checkFunction

/-- Embeds handleConeDataIntersection from Map.tsx: check the original,
minus-360 and plus-360 feature lists with the line-vs-polygon checker and
combine the three results with JavaScript disjunction (first non-null). -/
def handleConeDataIntersection (forecastConeData : ConeData)
    (adjustedCoordinates : List Coordinate) : Option Coordinate :=
  let intersectionOriginal :=
    checkIntersectionsWithFeatures forecastConeData.original.features
      adjustedCoordinates checkIntersectionBetweenLineAndPolygon
  let intersectionMinus360 :=
    checkIntersectionsWithFeatures forecastConeData.minus360.features
      adjustedCoordinates checkIntersectionBetweenLineAndPolygon
  let intersectionPlus360 :=
    checkIntersectionsWithFeatures forecastConeData.plus360.features
      adjustedCoordinates checkIntersectionBetweenLineAndPolygon
  intersectionOriginal.or (intersectionMinus360.or intersectionPlus360)

/-- Embeds checkIntersectionForTrackGroup (nested in
handleTrackDataIntersection in Map.tsx): loop over the track features, swap
each coordinate from (longitude, latitude) to (latitude, longitude), and
return the first non-null line-vs-line intersection. -/
def checkIntersectionForTrackGroup (trackData : TrackCollection)
    (adjustedCoordinates : List Coordinate) : Option Coordinate :=
  match trackData with
  | ⟨[]⟩ => none
  | ⟨feature :: rest⟩ =>
    let trackCoordinates := feature.coordinates.map fun coord => (coord.2, coord.1)
    match checkIntersectionBetweenLines adjustedCoordinates trackCoordinates with
    | some intersectionPoint => some intersectionPoint
    | none => checkIntersectionForTrackGroup ⟨rest⟩ adjustedCoordinates

/-- Embeds handleTrackDataIntersection from Map.tsx: check the original,
minus-360 and plus-360 track groups and combine the three results with
JavaScript disjunction (first non-null). -/
def handleTrackDataIntersection (observedTrackData : TrackData)
    (adjustedCoordinates : List Coordinate) : Option Coordinate :=
  let intersectionOriginalTrack :=
    checkIntersectionForTrackGroup observedTrackData.original adjustedCoordinates
  let intersectionMinus360Track :=
    checkIntersectionForTrackGroup observedTrackData.minus360 adjustedCoordinates
  let intersectionPlus360Track :=
    checkIntersectionForTrackGroup observedTrackData.plus360 adjustedCoordinates
  intersectionOriginalTrack.or
    (intersectionMinus360Track.or intersectionPlus360Track)

/-- Embeds findAndHandleIntersection from Map.tsx as the intersection it
reports: nothing on an empty route; otherwise the cone result when cone data
is present, and the track result only when that cone pass produced nothing.
The data arguments are optional, as the corresponding state starts null. -/
def findAndHandleIntersection (forecastConeData : Option ConeData)
    (observedTrackData : Option TrackData)
    (adjustedCoordinates : List Coordinate) : Option Coordinate :=
  if adjustedCoordinates.length = 0 then none
  else
    let intersection :=
      match forecastConeData with
      | some coneData => handleConeDataIntersection coneData adjustedCoordinates
      | none => none
    match intersection with
    | some p => some p
    | none =>
      match observedTrackData with
      | some trackData => handleTrackDataIntersection trackData adjustedCoordinates
      | none => none

/-- Relation between consecutive points whose longitudes differ by at most
180 degrees. -/
def lonGapLE (a b : Coordinate) : Prop := |b.2 - a.2| ≤ 180

instance : DecidableRel lonGapLE := fun a b =>
  inferInstanceAs (Decidable (|b.2 - a.2| ≤ 180))

/-- Concrete forecast-cone data for witnesses: one original feature whose
single ring is a square given in (longitude, latitude) order, with empty
shifted copies. -/
def sampleCone : ConeData :=
  ⟨⟨[⟨[[(4, -5), (4, 5), (6, 5), (6, -5)]]⟩]⟩, ⟨[]⟩, ⟨[]⟩⟩

/-- Concrete observed-track data for witnesses: one original feature whose
track is a two-point polyline in (longitude, latitude) order, with empty
shifted copies. -/
def sampleTrack : TrackData :=
  ⟨⟨[⟨[(7, -5), (7, 5)]⟩]⟩, ⟨[]⟩, ⟨[]⟩⟩

/-- Concrete route for witnesses: two points on the equator at longitudes
0 and 10. -/
def sampleRoute : List Coordinate := [(0, 0), (0, 10)]

/-! Helper lemmas shared by the claim theorems. -/

theorem foldl_adjust_eq (ps : List Coordinate) :
    ∀ (acc : List Coordinate) (prev : Coordinate), acc.getLast? = some prev →
      ps.foldl (fun acc p => acc ++ [handleDateLineCrossing acc.getLast? p]) acc =
        acc ++ adjustFrom prev ps := by
  induction ps with
  | nil => intro acc prev _; simp [adjustFrom]
  | cons p ps ih =>
    intro acc prev h
    simp only [List.foldl_cons, adjustFrom, h]
    rw [ih (acc ++ [handleDateLineCrossing (some prev) p])
      (handleDateLineCrossing (some prev) p) (List.getLast?_concat acc)]
    simp

theorem adjustRoute_nil : adjustRoute [] = [] := rfl

theorem adjustRoute_cons (p : Coordinate) (ps : List Coordinate) :
    adjustRoute (p :: ps) = p :: adjustFrom p ps := by
  unfold adjustRoute
  simp only [List.foldl_cons]
  have h1 : ([] : List Coordinate) ++
      [handleDateLineCrossing ([] : List Coordinate).getLast? p] = [p] := rfl
  rw [h1, foldl_adjust_eq ps [p] p rfl]
  rfl

theorem handleDateLineCrossing_of_small (prev cur : Coordinate)
    (h : |cur.2 - prev.2| ≤ 180) :
    handleDateLineCrossing (some prev) cur = cur := by
  simp only [handleDateLineCrossing]
  rw [if_neg (not_lt.mpr h)]

theorem handleDateLineCrossing_gap (prev cur : Coordinate)
    (h : |cur.2 - prev.2| ≤ 540) :
    lonGapLE prev (handleDateLineCrossing (some prev) cur) := by
  simp only [lonGapLE, handleDateLineCrossing]
  split_ifs with hd hc
  · have hx : |cur.2 - prev.2| = cur.2 - prev.2 := abs_of_pos (by linarith)
    rw [hx] at hd h
    rw [abs_le]
    constructor <;> simp <;> linarith
  · have hle : cur.2 - prev.2 ≤ 0 := by
      have := not_lt.mp hc
      linarith
    have hne : cur.2 - prev.2 < 0 := by
      rcases lt_or_eq_of_le hle with h1 | h1
      · exact h1
      · rw [h1] at hd; simp at hd; linarith
    have hx : |cur.2 - prev.2| = -(cur.2 - prev.2) := abs_of_neg hne
    rw [hx] at hd h
    rw [abs_le]
    constructor <;> simp <;> linarith
  · exact not_lt.mp hd

theorem adjustFrom_chain (ps : List Coordinate) :
    ∀ prev : Coordinate, withinUnwrapRange prev ps = true →
      List.Chain' lonGapLE (prev :: adjustFrom prev ps) := by
  induction ps with
  | nil => intro prev _; simp [adjustFrom]
  | cons p ps ih =>
    intro prev h
    simp only [withinUnwrapRange, Bool.and_eq_true, decide_eq_true_eq] at h
    simp only [adjustFrom]
    rw [List.chain'_cons]
    exact ⟨handleDateLineCrossing_gap prev p h.1,
      ih (handleDateLineCrossing (some prev) p) h.2⟩

theorem adjustFrom_id (ps : List Coordinate) :
    ∀ prev : Coordinate, List.Chain' lonGapLE (prev :: ps) →
      adjustFrom prev ps = ps := by
  induction ps with
  | nil => intro prev _; rfl
  | cons p ps ih =>
    intro prev h
    rw [List.chain'_cons] at h
    simp only [adjustFrom]
    rw [handleDateLineCrossing_of_small prev p h.1]
    rw [ih p h.2]

theorem adjustRoute_id_of_chain (ps : List Coordinate)
    (h : List.Chain' lonGapLE ps) : adjustRoute ps = ps := by
  cases ps with
  | nil => rfl
  | cons p ps => rw [adjustRoute_cons, adjustFrom_id ps p h]

theorem checkIntersectionsWithFeatures_eq_findSome (features : List Feature)
    (route : List Coordinate)
    (cf : List Coordinate → List (List Coordinate) → Option Coordinate) :
    checkIntersectionsWithFeatures features route cf =
      features.findSome? fun feat => cf route feat.coordinates := by
  induction features with
  | nil => rfl
  | cons f fs ih =>
    simp only [checkIntersectionsWithFeatures, List.findSome?]
    cases cf route f.coordinates with
    | none => simpa using ih
    | some p => rfl

theorem checkIntersectionForTrackGroup_eq_findSome (fs : List TrackFeature)
    (route : List Coordinate) :
    checkIntersectionForTrackGroup ⟨fs⟩ route =
      fs.findSome? fun f =>
        checkIntersectionBetweenLines route
          (f.coordinates.map fun c => (c.2, c.1)) := by
  induction fs with
  | nil => simp [checkIntersectionForTrackGroup, List.findSome?]
  | cons f fs ih =>
    simp only [checkIntersectionForTrackGroup, List.findSome?]
    cases checkIntersectionBetweenLines route
        (f.coordinates.map fun c => (c.2, c.1)) with
    | none => simpa using ih
    | some p => rfl

theorem handleDateLineCrossing_frame (prev cur : Coordinate) :
    (handleDateLineCrossing (some prev) cur).1 = cur.1 ∧
      ((handleDateLineCrossing (some prev) cur).2 = cur.2 - 360 ∨
        (handleDateLineCrossing (some prev) cur).2 = cur.2 ∨
        (handleDateLineCrossing (some prev) cur).2 = cur.2 + 360) := by
  simp only [handleDateLineCrossing]
  split_ifs with hd hc
  · exact ⟨rfl, Or.inl rfl⟩
  · exact ⟨rfl, Or.inr (Or.inr rfl)⟩
  · exact ⟨rfl, Or.inr (Or.inl rfl)⟩

theorem adjustFrom_forall₂ (ps : List Coordinate) :
    ∀ prev : Coordinate,
      List.Forall₂
        (fun a b : Coordinate => b.1 = a.1 ∧
          (b.2 = a.2 - 360 ∨ b.2 = a.2 ∨ b.2 = a.2 + 360))
        ps (adjustFrom prev ps) := by
  induction ps with
  | nil => intro prev; exact List.Forall₂.nil
  | cons p ps ih =>
    intro prev
    exact List.Forall₂.cons (handleDateLineCrossing_frame prev p)
      (ih (handleDateLineCrossing (some prev) p))

theorem handleDateLineCrossing_eq_specStep (prev cur : Coordinate) :
    handleDateLineCrossing (some prev) cur = specNormalizeStep prev cur := rfl

theorem adjustFrom_eq_specNormalizeAux (ps : List Coordinate) :
    ∀ prev : Coordinate, adjustFrom prev ps = specNormalizeAux prev ps := by
  induction ps with
  | nil => intro prev; rfl
  | cons p ps ih =>
    intro prev
    simp only [adjustFrom, specNormalizeAux, handleDateLineCrossing_eq_specStep]
    rw [ih]

theorem foldl_fst_sum (ps : List Coordinate) :
    ps.foldl (fun s c => s + c.1) 0 = (ps.map Prod.fst).sum := by
  rw [List.sum_eq_foldl, List.foldl_map]

theorem foldl_snd_sum (ps : List Coordinate) :
    ps.foldl (fun s c => s + c.2) 0 = (ps.map Prod.snd).sum := by
  rw [List.sum_eq_foldl, List.foldl_map]

/-! Claim theorems. -/

/-- C3: the normalizer adjusts each point after the first exactly by the
spec's rule (shift the longitude by 360 when its jump from the previous
adjusted longitude exceeds 180, subtracting when current exceeds previous
and adding otherwise), never adjusts the first point, and normalizes the
route [(0,179),(0,-179)] to [(0,179),(0,181)]. -/
theorem normalizer_matches_spec_rule :
    (∀ ps : List Coordinate, adjustRoute ps = specNormalize ps) ∧
    (∀ (p : Coordinate) (ps : List Coordinate),
      (adjustRoute (p :: ps)).head? = some p) ∧
    adjustRoute [((0 : ℚ), 179), (0, -179)] = [(0, 179), (0, 181)] := by
  refine ⟨?_, ?_, ?_⟩
  · intro ps
    cases ps with
    | nil => rfl
    | cons p ps =>
      rw [adjustRoute_cons]
      simp only [specNormalize]
      rw [adjustFrom_eq_specNormalizeAux]
  · intro p ps
    rw [adjustRoute_cons]
    rfl
  · rw [adjustRoute_cons]
    norm_num [adjustFrom, handleDateLineCrossing]

/-- C2 counterexample: on the route [(0,-60),(0,130),(0,-40),(0,180)], whose
raw longitudes all lie in [-180,180], the normalizer outputs
[(0,-60),(0,-230),(0,-400),(0,-180)]; the last two output points differ by
220 degrees in longitude, refuting that every pair of consecutive output
points differs by at most 180 degrees. -/
theorem normalizer_gap_counterexample :
    adjustRoute [((0 : ℚ), -60), (0, 130), (0, -40), (0, 180)] =
      [(0, -60), (0, -230), (0, -400), (0, -180)] ∧
    ¬ List.Chain' lonGapLE
      (adjustRoute [((0 : ℚ), -60), (0, 130), (0, -40), (0, 180)]) := by
  have he : adjustRoute [((0 : ℚ), -60), (0, 130), (0, -40), (0, 180)] =
      [(0, -60), (0, -230), (0, -400), (0, -180)] := by
    rw [adjustRoute_cons]
    norm_num [adjustFrom, handleDateLineCrossing]
  refine ⟨he, ?_⟩
  rw [he]
  simp [List.chain'_cons, lonGapLE]
  norm_num

/-- C2 amended: for every route in which each point's raw longitude lies
within 540 degrees of the previous adjusted longitude (so that a single
360-degree shift suffices), every pair of consecutive output points of the
normalizer differs by at most 180 degrees in longitude. -/
theorem normalizer_gap_le_180_of_bounded (ps : List Coordinate)
    (h : traceBounded ps = true) :
    List.Chain' lonGapLE (adjustRoute ps) := by
  cases ps with
  | nil => simp [adjustRoute_nil]
  | cons p ps =>
    rw [adjustRoute_cons]
    exact adjustFrom_chain ps p h

/-- Witness for the amended C2 theorem at the antimeridian crossing route
[(0,179),(0,-179)]. -/
theorem normalizer_gap_le_180_of_bounded_witness :
    List.Chain' lonGapLE (adjustRoute [((0 : ℚ), 179), (0, -179)]) :=
  normalizer_gap_le_180_of_bounded _
    (by norm_num [traceBounded, withinUnwrapRange, handleDateLineCrossing])

/-- C4 counterexample: on the route [(0,0),(0,541)] the normalizer outputs
[(0,0),(0,181)], and a second application outputs [(0,0),(0,-179)], so the
normalizer is not idempotent on every point sequence. -/
theorem normalizer_not_idempotent :
    adjustRoute (adjustRoute [((0 : ℚ), 0), (0, 541)]) ≠
      adjustRoute [((0 : ℚ), 0), (0, 541)] := by
  have h1 : adjustRoute [((0 : ℚ), 0), (0, 541)] = [(0, 0), (0, 181)] := by
    rw [adjustRoute_cons]
    norm_num [adjustFrom, handleDateLineCrossing]
  have h2 : adjustRoute [((0 : ℚ), 0), (0, 181)] = [(0, 0), (0, -179)] := by
    rw [adjustRoute_cons]
    norm_num [adjustFrom, handleDateLineCrossing]
  rw [h1, h2]
  intro hc
  simp [Prod.ext_iff] at hc
  norm_num at hc

/-- C4 amended: for every route in which each point's raw longitude lies
within 540 degrees of the previous adjusted longitude, normalization is
idempotent: applying the normalizer to its own output returns that output
unchanged. -/
theorem normalizer_idempotent_of_bounded (ps : List Coordinate)
    (h : traceBounded ps = true) :
    adjustRoute (adjustRoute ps) = adjustRoute ps := by
  cases ps with
  | nil => rfl
  | cons p ps =>
    rw [adjustRoute_cons]
    exact adjustRoute_id_of_chain _ (adjustFrom_chain ps p h)

/-- Witness for the amended C4 theorem at the antimeridian crossing route
[(0,170),(0,-170)]. -/
theorem normalizer_idempotent_of_bounded_witness :
    adjustRoute (adjustRoute [((0 : ℚ), 170), (0, -170)]) =
      adjustRoute [((0 : ℚ), 170), (0, -170)] :=
  normalizer_idempotent_of_bounded _
    (by norm_num [traceBounded, withinUnwrapRange, handleDateLineCrossing])

/-- C5: for every route whose longitudes all lie within [-180,180] and whose
consecutive points never differ by more than 180 degrees in longitude, the
normalizer is the identity. -/
theorem normalizer_id_on_normalized (ps : List Coordinate)
    (_h1 : ∀ c ∈ ps, -180 ≤ c.2 ∧ c.2 ≤ 180)
    (h2 : List.Chain' lonGapLE ps) :
    adjustRoute ps = ps :=
  adjustRoute_id_of_chain ps h2

/-- Witness for the C5 theorem at the route [(0,10),(0,20)]. -/
theorem normalizer_id_on_normalized_witness :
    adjustRoute [((0 : ℚ), 10), (0, 20)] = [(0, 10), (0, 20)] :=
  normalizer_id_on_normalized _
    (by
      intro c hc
      simp at hc
      rcases hc with rfl | rfl <;> norm_num)
    (by
      simp [List.chain'_cons, lonGapLE]
      norm_num)

/-- C6: the centroid function returns the arithmetic mean of all latitudes
and of all longitudes, computed independently and unweighted, and maps
[(0,0),(0,10),(10,0),(10,10)] to (5,5). -/
theorem centroid_is_componentwise_mean :
    (∀ ps : List Coordinate, ps ≠ [] →
      calculateMeanLatLon ps =
        ((ps.map Prod.fst).sum / ps.length,
          (ps.map Prod.snd).sum / ps.length)) ∧
    calculateMeanLatLon [((0 : ℚ), 0), (0, 10), (10, 0), (10, 10)] =
      (5, 5) := by
  constructor
  · intro ps _
    simp only [calculateMeanLatLon, foldl_fst_sum, foldl_snd_sum]
  · norm_num [calculateMeanLatLon]

/-- Witness for the C6 theorem at the route [(3,4),(5,6)]. -/
theorem centroid_is_componentwise_mean_witness :
    calculateMeanLatLon [((3 : ℚ), 4), (5, 6)] = (4, 5) := by
  rw [centroid_is_componentwise_mean.1 [((3 : ℚ), 4), (5, 6)] (by simp)]
  norm_num

/-- C7 (defect evidence): on a route whose latitude field is not numeric,
the normalization effect proceeds and emits a coordinate whose latitude is
NaN (modelled as none); its return type carries no error channel, so no
ParseError is surfaced to the caller. -/
theorem nan_coordinates_proceed :
    routeNormalizationEffect [⟨none, some 10⟩] = [(none, some 10)] := rfl

/-- C10: the normalizer preserves the length of the route and every
latitude, and changes each longitude only by a multiple of 360 taken from
-360, 0, or +360. -/
theorem normalizer_frame_condition (ps : List Coordinate) :
    (adjustRoute ps).length = ps.length ∧
    List.Forall₂
      (fun a b : Coordinate => b.1 = a.1 ∧
        (b.2 = a.2 - 360 ∨ b.2 = a.2 ∨ b.2 = a.2 + 360))
      ps (adjustRoute ps) := by
  have hf : List.Forall₂
      (fun a b : Coordinate => b.1 = a.1 ∧
        (b.2 = a.2 - 360 ∨ b.2 = a.2 ∨ b.2 = a.2 + 360))
      ps (adjustRoute ps) := by
    cases ps with
    | nil => exact List.Forall₂.nil
    | cons p ps =>
      rw [adjustRoute_cons]
      exact List.Forall₂.cons ⟨rfl, Or.inr (Or.inl rfl)⟩ (adjustFrom_forall₂ ps p)
  exact ⟨hf.length_eq.symm, hf⟩

/-- C1: when both cone (polygon) and track (line) hazard data are supplied
and both intersect the route, the scan reports the cone intersection point;
the track result is consulted only when the whole cone pass over all three
copies produced nothing. -/
theorem cone_over_track_precedence :
    (∀ (cd : ConeData) (td : TrackData) (route : List Coordinate)
        (p q : Coordinate), route ≠ [] →
      handleConeDataIntersection cd route = some p →
      handleTrackDataIntersection td route = some q →
      findAndHandleIntersection (some cd) (some td) route = some p) ∧
    (∀ (cd : ConeData) (td : TrackData) (route : List Coordinate),
        route ≠ [] →
      handleConeDataIntersection cd route = none →
      findAndHandleIntersection (some cd) (some td) route =
        handleTrackDataIntersection td route) := by
  constructor
  · intro cd td route p q hr hc _
    simp only [findAndHandleIntersection]
    rw [if_neg (by simpa [List.length_eq_zero] using hr)]
    simp [hc]
  · intro cd td route hr hc
    simp only [findAndHandleIntersection]
    rw [if_neg (by simpa [List.length_eq_zero] using hr)]
    simp [hc]

/-- Witness for the C1 theorem: a route crossing both a cone square at
(0,4) and a track line at (0,7) reports the cone point (0,4). -/
theorem cone_over_track_precedence_witness :
    findAndHandleIntersection (some sampleCone) (some sampleTrack)
      sampleRoute = some (0, 4) :=
  cone_over_track_precedence.1 sampleCone sampleTrack sampleRoute (0, 4) (0, 7)
    (by simp [sampleRoute])
    (by norm_num [sampleCone, sampleRoute, handleConeDataIntersection,
      checkIntersectionsWithFeatures, checkIntersectionBetweenLineAndPolygon,
      lineProbePolygonRaw, ringEdges, segmentsIntersect, swapLonLat,
      List.findSome?, Option.or])
    (by norm_num [sampleTrack, sampleRoute, handleTrackDataIntersection,
      checkIntersectionForTrackGroup, checkIntersectionBetweenLines,
      segmentsIntersect, List.findSome?, Option.or])

/-- C8: the multi-copy scan equals the first non-absent intersection over
the features of the original, minus-360 and plus-360 copies concatenated in
that fixed order (for both the cone and the track scans); in particular a
hit from the original copy is always the result. -/
theorem hazard_scan_order :
    (∀ (cd : ConeData) (route : List Coordinate),
      handleConeDataIntersection cd route =
        (cd.original.features ++
            (cd.minus360.features ++ cd.plus360.features)).findSome?
          fun f => checkIntersectionBetweenLineAndPolygon route
            f.coordinates) ∧
    (∀ (td : TrackData) (route : List Coordinate),
      handleTrackDataIntersection td route =
        (td.original.features ++
            (td.minus360.features ++ td.plus360.features)).findSome?
          fun f => checkIntersectionBetweenLines route
            (f.coordinates.map fun c => (c.2, c.1))) ∧
    (∀ (cd : ConeData) (route : List Coordinate) (p : Coordinate),
      checkIntersectionsWithFeatures cd.original.features route
          checkIntersectionBetweenLineAndPolygon = some p →
      handleConeDataIntersection cd route = some p) := by
  have hcone : ∀ (cd : ConeData) (route : List Coordinate),
      handleConeDataIntersection cd route =
        (cd.original.features ++
            (cd.minus360.features ++ cd.plus360.features)).findSome?
          fun f => checkIntersectionBetweenLineAndPolygon route
            f.coordinates := by
    intro cd route
    simp only [handleConeDataIntersection,
      checkIntersectionsWithFeatures_eq_findSome]
    rw [List.findSome?_append, List.findSome?_append]
  refine ⟨hcone, ?_, ?_⟩
  · intro td route
    obtain ⟨⟨ofs⟩, ⟨mfs⟩, ⟨pfs⟩⟩ := td
    simp only [handleTrackDataIntersection,
      checkIntersectionForTrackGroup_eq_findSome]
    rw [List.findSome?_append, List.findSome?_append]
  · intro cd route p h
    rw [hcone cd route, List.findSome?_append,
      checkIntersectionsWithFeatures_eq_findSome] at *
    rw [h]
    rfl

/-- Witness for the C8 theorem: the sample cone's original copy hits the
sample route at (0,4), and the scan reports exactly that point. -/
theorem hazard_scan_order_witness :
    handleConeDataIntersection sampleCone sampleRoute = some (0, 4) :=
  hazard_scan_order.2.2 sampleCone sampleRoute (0, 4)
    (by norm_num [sampleCone, sampleRoute, checkIntersectionsWithFeatures,
      checkIntersectionBetweenLineAndPolygon, lineProbePolygonRaw, ringEdges,
      segmentsIntersect, swapLonLat, List.findSome?])

/-- C9: the track scan hands the line-vs-line primitive exactly the
(latitude, longitude)-swapped track coordinates, and the line-vs-polygon
check probes exactly the (latitude, longitude)-swapped rings, so rings
authored in (latitude, longitude) order and swapped to (longitude, latitude)
on input are probed raw, in the same axis convention as the route. -/
theorem axis_reorder_before_probe :
    (∀ (tc : TrackCollection) (route : List Coordinate),
      checkIntersectionForTrackGroup tc route =
        tc.features.findSome? fun f =>
          checkIntersectionBetweenLines route
            (f.coordinates.map swapLonLat)) ∧
    (∀ (route : List Coordinate) (polygon : List (List Coordinate)),
      checkIntersectionBetweenLineAndPolygon route polygon =
        lineProbePolygonRaw route (polygon.map (List.map swapLonLat))) ∧
    (∀ (route : List Coordinate) (rings : List (List Coordinate)),
      checkIntersectionBetweenLineAndPolygon route
          (rings.map (List.map swapLonLat)) =
        lineProbePolygonRaw route rings) := by
  refine ⟨?_, fun _ _ => rfl, ?_⟩
  · intro tc route
    obtain ⟨fs⟩ := tc
    exact checkIntersectionForTrackGroup_eq_findSome fs route
  · intro route rings
    simp only [checkIntersectionBetweenLineAndPolygon, List.map_map]
    have hswap : swapLonLat ∘ swapLonLat = id := funext fun c => rfl
    have hcomp : (List.map swapLonLat ∘ List.map swapLonLat) =
        (id : List Coordinate → List Coordinate) := by
      funext l
      show List.map swapLonLat (List.map swapLonLat l) = l
      rw [List.map_map, hswap, List.map_id]
    rw [hcomp, List.map_id]

end ShippingMap
